import Mathlib

/-!
# Verification of `doxy-coverage.py`

A shallow embedding of the documentation-coverage tool `doxy-coverage.py`
(Python 2) together with proofs about its definition classifier
(`parse_definition`), its parsing loop, and its reporter (`report`).

Modelling conventions:
* XML elements are modelled by `XmlNode` (tag, attributes, text, child
  elements).  `Element.get` is `getAttr`, `Element.find('./t')` is
  `findChild`, and `Element.findall("./t/")` — which ElementTree rewrites
  to `"./t/*"`, i.e. all child *elements* of each child `t` — is
  `findallSlash`.
* Python dicts are association lists with Python's update semantics:
  assigning to an existing key overwrites it in place, a new key is
  appended (`pyInsert`).  Iteration order of the model is this list order.
* The filesystem (`os.path.isfile`, `os.path.realpath`) is a parameter
  `Env`.
* Printed output is modelled structurally as `OutputLine` values.
* Uncaught Python exceptions are modelled by `Option`: `none` means the
  call raises.  In `parse_definition` this happens when the node has no
  `kind` attribute (Python 2 raises `TypeError` on `None in 'namespace'`)
  or when `int(line)` cannot parse (`ValueError`).
* The reporter's division by zero (`ZeroDivisionError` when there are no
  definitions at all) is modelled by returning `none` for the exit signal.
-/

/-- An XML element: tag, attribute list, direct text, and child elements. -/
inductive XmlNode where
  | mk (tag : String) (attrs : List (String × String)) (text : Option String)
       (children : List XmlNode)

def XmlNode.tag : XmlNode → String
  | .mk t _ _ _ => t

def XmlNode.attrs : XmlNode → List (String × String)
  | .mk _ a _ _ => a

def XmlNode.text : XmlNode → Option String
  | .mk _ _ t _ => t

def XmlNode.children : XmlNode → List XmlNode
  | .mk _ _ _ c => c

/-- `Element.get(key)`: first attribute with the given name, else `None`. -/
def getAttr (n : XmlNode) (key : String) : Option String :=
  (n.attrs.find? fun kv => decide (kv.1 = key)).map Prod.snd

/-- `Element.find('./tag')`: first child element with the given tag. -/
def findChild (n : XmlNode) (tag : String) : Option XmlNode :=
  n.children.find? fun c => decide (c.tag = tag)

/-- `Element.findall("./tag/")`: ElementTree appends `*` to a path ending in
`/`, so this is every child element of every child with the given tag. -/
def findallSlash (n : XmlNode) (tag : String) : List XmlNode :=
  ((n.children.filter fun c => decide (c.tag = tag)).map XmlNode.children).flatten

/-- `a` is a prefix of `b` (over lists of characters). -/
def leadsWith : List Char → List Char → Bool
  | [], _ => true
  | _ :: _, [] => false
  | a :: as, b :: bs => a == b && leadsWith as bs

/-- `a` occurs as a contiguous sublist of `b`. -/
def occursIn : List Char → List Char → Bool
  | sub, [] => sub.isEmpty
  | sub, b :: bs => leadsWith sub (b :: bs) || occursIn sub bs

/-- Python's `sub in hay` on strings: substring containment. -/
def strIn (sub hay : String) : Bool :=
  occursIn sub.toList hay.toList

/-- Python's `"%s" % x` for a possibly-`None` string: `None` prints as
`"None"`. -/
def pyStr : Option String → String
  | some s => s
  | none => "None"

/-- Reads a non-empty run of decimal digits; `none` on any other
character. -/
def readDigits : List Char → Nat → Option Nat
  | [], acc => some acc
  | c :: cs, acc =>
    if '0' ≤ c ∧ c ≤ '9' then readDigits cs (acc * 10 + (c.toNat - '0'.toNat))
    else none

/-- Python's `int(s)` on the decimal strings occurring as `line`
attributes; `none` models the `ValueError` raised on malformed input
(surrounding whitespace, accepted by Python, is not modelled). -/
def pyInt (s : String) : Option Int :=
  match s.toList with
  | [] => none
  | '-' :: cs => if cs = [] then none else (readDigits cs 0).map fun n => -(n : Int)
  | '+' :: cs => if cs = [] then none else (readDigits cs 0).map fun n => (n : Int)
  | cs => (readDigits cs 0).map fun n => (n : Int)

/-- The filesystem the tool queries: `os.path.isfile` and
`os.path.realpath`. -/
structure Env where
  isfile : String → Bool
  realpath : String → String

/-- A Python dict key coming from `name`/`definition` text or the `id`
attribute; Python's `None` is a legal dict key, hence `Option String`. -/
abbrev DefId := Option String

/-- One file's definitions: `DefinitionId ↦ (line, documented)`. -/
abbrev FileRecord := List (DefId × (Int × Bool))

/-- The accumulated mapping `resolved file path ↦ FileRecord`. -/
abbrev CoverageIndex := List (String × FileRecord)

/-- Python dict assignment `d[k] = v`: overwrite in place, else append. -/
def pyInsert {α β : Type} [DecidableEq α] (k : α) (v : β) :
    List (α × β) → List (α × β)
  | [] => [(k, v)]
  | (k2, v2) :: rest =>
    if k2 = k then (k2, v) :: rest else (k2, v2) :: pyInsert k v rest

/-- Python dict lookup `d[k]` (first matching key). -/
def lookupPy {α β : Type} [DecidableEq α] (l : List (α × β)) (k : α) :
    Option β :=
  (l.find? fun kv => decide (kv.1 = k)).map Prod.snd

/-- `files.get(filename, {})`: the record for a file, defaulting to the
empty record. -/
def lookupD (files : CoverageIndex) (f : String) : FileRecord :=
  (lookupPy files f).getD []

/-- The exact value of a per-file coverage expression
`doc_yes * 100.0 / (doc_yes + doc_no)` (or the plain `100` for an empty
record), kept as an unreduced numerator/denominator pair of naturals.
Comparisons are exact rational comparisons by cross-multiplication, which
is what Python's float comparison computes for these small values. -/
structure CovRatio where
  num : Nat
  den : Nat
deriving DecidableEq, Repr

/-- Strict numeric comparison of two coverage ratios (denominators are
positive in every use). -/
def covRatioLt (a b : CovRatio) : Bool :=
  a.num * b.den < b.num * a.den

/-- A line of the program's output, kept structurally rather than as
formatted text. -/
inductive OutputLine where
  /-- `'%3d%% - %s - (%d of %d)'`: the per-file line; the coverage ratio is
  kept as the exact fraction the float computes from. -/
  | fileLine (per : CovRatio) (path : String) (docYes docTotal : Nat)
  /-- `" L: %4d - %s"`: one undocumented definition. -/
  | undocLine (line : Int) (defid : DefId)
  /-- the bare `print()` before the global line -/
  | blank
  /-- `"%d%% API documentation coverage"` -/
  | globalLine (per : Nat)
  /-- `"skip %s "` for a definition whose file does not exist -/
  | skipLine (node : XmlNode)

/-- The loop
`for k in ('briefdescription','detaileddescription','inbodydescription'):
  if definition.findall("./%s/"%(k)): documented = True; break`. -/
def documentedCheck (definition : XmlNode) : Bool :=
  ["briefdescription", "detaileddescription", "inbodydescription"].any
    fun k => !(findallSlash definition k).isEmpty

/-- Name resolution: `definition` child text, else `name` child text, else
the `id` attribute (any of which may be Python `None`). -/
def resolveName (definition : XmlNode) : Option String :=
  match findChild definition "definition" with
  | some n => n.text
  | none =>
    match findChild definition "name" with
    | some n => n.text
    | none => getAttr definition "id"

/-- `defid = name`, or `"%s%s" % (name, d_arg.text)` when an `argsstring`
child exists. -/
def defId (definition : XmlNode) : DefId :=
  match findChild definition "argsstring" with
  | some a => some (pyStr (resolveName definition) ++ pyStr a.text)
  | none => resolveName definition

/-- The definition classifier `parse_definition(files, definition)`.
Returns the updated index and the lines it printed; `none` models an
uncaught exception (missing `kind` attribute, or unparsable `line`). -/
def parse_definition (env : Env) (files : CoverageIndex)
    (definition : XmlNode) : Option (CoverageIndex × List OutputLine) :=
  match getAttr definition "kind" with
  | none => none
  | some kind =>
    -- `definition.get('kind') in ('namespace')` — a *substring* test,
    -- since `('namespace')` is the plain string `'namespace'`.
    if strIn kind "namespace" then some (files, [])
    else if kind = "function" ∧ getAttr definition "static" = some "yes" then
      some (files, [])
    else
      let documented := documentedCheck definition
      match findChild definition "location" with
      | none => some (files, [])
      | some l =>
        match getAttr l "line", getAttr l "file" with
        | some line, some filename =>
          if !env.isfile filename then
            some (files, [OutputLine.skipLine definition])
          else
            let filename := env.realpath filename
            match pyInt line with
            | none => none
            | some ln =>
              let definitions := lookupD files filename
              some (pyInsert filename
                      (pyInsert (defId definition) (ln, documented) definitions)
                      files, [])
        | _, _ => some (files, [])

/-- Folding `parse_definition` over a list of definition nodes, threading
the index and accumulating output, as `parse_file` does. -/
def parse_defs (env : Env) (files : CoverageIndex) (out : List OutputLine) :
    List XmlNode → Option (CoverageIndex × List OutputLine)
  | [] => some (files, out)
  | d :: ds =>
    match parse_definition env files d with
    | none => none
    | some (files2, o) => parse_defs env files2 (out ++ o) ds

/-! ## The reporter `report(files)` -/

/-- Python truthiness of a `(line, documented)` value as tested by
`[d for d in defs.values() if d]` inside `get_coverage`: a non-empty tuple
is always truthy, whatever `documented` is. -/
def tupleTruthy (_ : Int × Bool) : Bool :=
  true

/-- The inner `get_coverage(f)` used only by the sort comparator.  Because
it tests the truthiness of whole `(line, documented)` tuples, `doc_no` is
always `0` and every non-empty record also yields the value `100`. -/
def get_coverage (files : CoverageIndex) (f : String) : CovRatio :=
  let defs := lookupD files f
  if defs = [] then ⟨100, 1⟩
  else
    let doc_yes := (defs.filter fun kv => tupleTruthy kv.2).length
    let doc_no := (defs.filter fun kv => !tupleTruthy kv.2).length
    ⟨doc_yes * 100, doc_yes + doc_no⟩

/-- `len([d for (_,d) in defs.values() if d])`. -/
def fileYes (defs : FileRecord) : Nat :=
  (defs.filter fun kv => kv.2.2).length

/-- `len([d for (_,d) in defs.values() if not d])`. -/
def fileNo (defs : FileRecord) : Nat :=
  (defs.filter fun kv => !kv.2.2).length

/-- Python 2's default `<` on the dict keys sorted by `defs_sorted.sort()`:
`None` is smaller than every string, strings compare lexicographically. -/
def defIdLt (a b : DefId) : Bool :=
  match a, b with
  | none, none => false
  | none, some _ => true
  | some _, none => false
  | some x, some y => decide (x < y)

/-- Stable insertion into an ascending list: a newly processed element is
placed before the first element that is not smaller than it. -/
def insertCmp {α : Type} (lt : α → α → Bool) (x : α) : List α → List α
  | [] => [x]
  | y :: ys => if lt y x then y :: insertCmp lt x ys else x :: y :: ys

/-- Stable ascending sort by a comparator, modelling Python 2's stable
`list.sort(cmp)` (for a total preorder every stable sort agrees). -/
def sortCmp {α : Type} (lt : α → α → Bool) : List α → List α
  | [] => []
  | x :: xs => insertCmp lt x (sortCmp lt xs)

/-- The comparator `file_cmp`, reduced to its strict part. -/
def covLt (files : CoverageIndex) (a b : String) : Bool :=
  covRatioLt (get_coverage files a) (get_coverage files b)

/-- `files_sorted = files.keys(); files_sorted.sort(file_cmp);
files_sorted.reverse()`. -/
def sortedFiles (files : CoverageIndex) : List String :=
  (sortCmp (covLt files) (files.map Prod.fst)).reverse

/-- The `for d in defs_sorted: ... if not state: print(" L: ...")` inner
loop: undocumented-definition lines in sorted key order. -/
def undocLines (defs : FileRecord) : List OutputLine :=
  (sortCmp defIdLt (defs.map Prod.fst)).flatMap fun d =>
    (lookupPy defs d).elim [] fun p =>
      if p.2 then [] else [OutputLine.undocLine p.1 d]

/-- The per-file printing loop of `report`: emits one `fileLine` plus the
undocumented-definition lines for each file with a non-empty record, and
accumulates `(total_yes, total_no)`. -/
def reportLoop (files : CoverageIndex) : List String → List OutputLine × Nat × Nat
  | [] => ([], 0, 0)
  | f :: fs =>
    let defs := lookupD files f
    let res := reportLoop files fs
    if defs = [] then res
    else
      let doc_yes := fileYes defs
      let doc_no := fileNo defs
      let doc_per : CovRatio := ⟨doc_yes * 100, doc_yes + doc_no⟩
      (OutputLine.fileLine doc_per f doc_yes (doc_yes + doc_no)
         :: undocLines defs ++ res.1,
       doc_yes + res.2.1, doc_no + res.2.2)

/-- `report(files)`: the printed lines and the returned signal.  The signal
is `none` when `total_yes + total_no = 0`, modelling the uncaught
`ZeroDivisionError` of `total_yes * 100 / total_all`; in that case the two
global lines are never printed either. -/
def report (files : CoverageIndex) (threshold : Int) :
    List OutputLine × Option Int :=
  let res := reportLoop files (sortedFiles files)
  let total_all := res.2.1 + res.2.2
  if total_all = 0 then (res.1, none)
  else
    let total_per : Nat := res.2.1 * 100 / total_all
    (res.1 ++ [OutputLine.blank, OutputLine.globalLine total_per],
     some (if (total_per : Int) > threshold then 0 else threshold - total_per))

/-! ## Aggregates used to state the reporter claims -/

/-- Total number of documented definitions over the whole index. -/
def totalYes (files : CoverageIndex) : Nat :=
  ((files.map Prod.fst).map fun f => fileYes (lookupD files f)).sum

/-- Total number of undocumented definitions over the whole index. -/
def totalNo (files : CoverageIndex) : Nat :=
  ((files.map Prod.fst).map fun f => fileNo (lookupD files f)).sum

/-- Total number of definitions over the whole index. -/
def totalAll (files : CoverageIndex) : Nat :=
  totalYes files + totalNo files

/-- Per-file coverage as the specification defines it: documented count
times 100 over total count with real division, and 100 for an empty
record.  Stated over `ℚ`; used only in claim statements, never by the
embedded code. -/
def specFileCoverage (defs : FileRecord) : ℚ :=
  if defs = [] then 100
  else (fileYes defs : ℚ) * 100 / ((fileYes defs : ℚ) + (fileNo defs : ℚ))

/-! ## Helper lemmas -/

theorem leadsWith_iff (a b : List Char) :
    leadsWith a b = true ↔ ∃ t, a ++ t = b := by
  induction a generalizing b with
  | nil => simp [leadsWith]
  | cons c cs ih =>
    cases b with
    | nil => simp [leadsWith]
    | cons d ds =>
      simp only [leadsWith, Bool.and_eq_true, beq_iff_eq, ih, List.cons_append,
        List.cons.injEq]
      constructor
      · rintro ⟨rfl, t, rfl⟩; exact ⟨t, rfl, rfl⟩
      · rintro ⟨t, rfl, rfl⟩; exact ⟨rfl, t, rfl⟩

theorem occursIn_iff (a b : List Char) :
    occursIn a b = true ↔ ∃ s t, s ++ a ++ t = b := by
  induction b with
  | nil =>
    simp only [occursIn, List.isEmpty_iff]
    constructor
    · rintro rfl; exact ⟨[], [], rfl⟩
    · rintro ⟨s, t, h⟩
      rcases List.append_eq_nil.mp h with ⟨h1, h2⟩
      exact (List.append_eq_nil.mp h1).2
  | cons d ds ih =>
    simp only [occursIn, Bool.or_eq_true, leadsWith_iff, ih]
    constructor
    · rintro (⟨t, h⟩ | ⟨s, t, h⟩)
      · exact ⟨[], t, by simpa using h⟩
      · exact ⟨d :: s, t, by simp [h]⟩
    · rintro ⟨s, t, h⟩
      cases s with
      | nil => exact Or.inl ⟨t, by simpa using h⟩
      | cons x xs =>
        right
        simp only [List.cons_append, List.cons.injEq] at h
        exact ⟨xs, t, h.2⟩

theorem strIn_iff (sub hay : String) :
    strIn sub hay = true ↔ ∃ s t, s ++ sub.toList ++ t = hay.toList := by
  simpa [strIn] using occursIn_iff sub.toList hay.toList

theorem lookupPy_pyInsert_self {α β : Type} [DecidableEq α]
    (l : List (α × β)) (k : α) (v : β) :
    lookupPy (pyInsert k v l) k = some v := by
  induction l with
  | nil => simp [pyInsert, lookupPy]
  | cons kv rest ih =>
    by_cases h : kv.1 = k
    · simp [pyInsert, lookupPy, h]
    · simpa [pyInsert, lookupPy, h] using ih

theorem lookupPy_pyInsert_ne {α β : Type} [DecidableEq α]
    (l : List (α × β)) (k k' : α) (v : β) (h : k' ≠ k) :
    lookupPy (pyInsert k v l) k' = lookupPy l k' := by
  induction l with
  | nil => simp [pyInsert, lookupPy, h, Ne.symm h]
  | cons kv rest ih =>
    by_cases hk : kv.1 = k
    · subst hk
      simp [pyInsert, lookupPy, Ne.symm h]
    · by_cases hk' : kv.1 = k'
      · simp [pyInsert, lookupPy, hk, hk', h, Ne.symm h]
      · simpa [pyInsert, lookupPy, hk, hk'] using ih

theorem lookupD_pyInsert_self (files : CoverageIndex) (f : String)
    (r : FileRecord) : lookupD (pyInsert f r files) f = r := by
  simp [lookupD, lookupPy_pyInsert_self]

theorem parse_definition_namespaceKind (env : Env) (files : CoverageIndex)
    (d : XmlNode) (k : String) (hk : getAttr d "kind" = some k)
    (hs : strIn k "namespace" = true) :
    parse_definition env files d = some (files, []) := by
  simp [parse_definition, hk, hs]

theorem parse_definition_stores (env : Env) (files : CoverageIndex)
    (d : XmlNode) (k : String) (loc : XmlNode) (f ln : String) (l : Int)
    (hk : getAttr d "kind" = some k)
    (hns : strIn k "namespace" = false)
    (hst : ¬(k = "function" ∧ getAttr d "static" = some "yes"))
    (hloc : findChild d "location" = some loc)
    (hline : getAttr loc "line" = some ln)
    (hfile : getAttr loc "file" = some f)
    (hex : env.isfile f = true)
    (hint : pyInt ln = some l) :
    parse_definition env files d =
      some (pyInsert (env.realpath f)
              (pyInsert (defId d) (l, documentedCheck d)
                (lookupD files (env.realpath f))) files, []) := by
  simp [parse_definition, hk, hns, hst, hloc, hline, hfile, hex, hint]

theorem parse_definition_skips (env : Env) (files : CoverageIndex)
    (d : XmlNode) (k : String) (loc : XmlNode) (f ln : String)
    (hk : getAttr d "kind" = some k)
    (hns : strIn k "namespace" = false)
    (hst : ¬(k = "function" ∧ getAttr d "static" = some "yes"))
    (hloc : findChild d "location" = some loc)
    (hline : getAttr loc "line" = some ln)
    (hfile : getAttr loc "file" = some f)
    (hex : env.isfile f = false) :
    parse_definition env files d = some (files, [OutputLine.skipLine d]) := by
  simp [parse_definition, hk, hns, hst, hloc, hline, hfile, hex]

theorem parse_defs_step_unchanged (env : Env) (files : CoverageIndex)
    (out : List OutputLine) (d : XmlNode) (ds : List XmlNode)
    (h : parse_definition env files d = some (files, [])) :
    parse_defs env files out (d :: ds) = parse_defs env files out ds := by
  simp [parse_defs, h]

theorem insertCmp_perm {α : Type} (lt : α → α → Bool) (x : α) (l : List α) :
    List.Perm (insertCmp lt x l) (x :: l) := by
  induction l with
  | nil => exact List.Perm.refl _
  | cons y ys ih =>
    cases h : lt y x with
    | false => simp [insertCmp, h]
    | true =>
      simp only [insertCmp, h, if_pos]
      exact (ih.cons y).trans (List.Perm.swap x y ys)

theorem sortCmp_perm {α : Type} (lt : α → α → Bool) (l : List α) :
    List.Perm (sortCmp lt l) l := by
  induction l with
  | nil => exact List.Perm.refl _
  | cons x xs ih =>
    exact (insertCmp_perm lt x (sortCmp lt xs)).trans (ih.cons x)

theorem sortedFiles_perm (files : CoverageIndex) :
    List.Perm (sortedFiles files) (files.map Prod.fst) := by
  exact (List.reverse_perm _).trans (sortCmp_perm _ _)

theorem reportLoop_yes (files : CoverageIndex) (l : List String) :
    (reportLoop files l).2.1 = (l.map fun f => fileYes (lookupD files f)).sum := by
  induction l with
  | nil => simp [reportLoop]
  | cons f fs ih =>
    by_cases h : lookupD files f = []
    · simp [reportLoop, h, ih, fileYes]
    · simp [reportLoop, h, ih]

theorem reportLoop_no (files : CoverageIndex) (l : List String) :
    (reportLoop files l).2.2 = (l.map fun f => fileNo (lookupD files f)).sum := by
  induction l with
  | nil => simp [reportLoop]
  | cons f fs ih =>
    by_cases h : lookupD files f = []
    · simp [reportLoop, h, ih, fileNo]
    · simp [reportLoop, h, ih]

theorem reportTotals_yes (files : CoverageIndex) :
    (reportLoop files (sortedFiles files)).2.1 = totalYes files := by
  rw [reportLoop_yes, totalYes]
  exact ((sortedFiles_perm files).map _).sum_eq

theorem reportTotals_no (files : CoverageIndex) :
    (reportLoop files (sortedFiles files)).2.2 = totalNo files := by
  rw [reportLoop_no, totalNo]
  exact ((sortedFiles_perm files).map _).sum_eq

theorem reportLoop_shape (files : CoverageIndex) (l : List String) :
    ∀ x ∈ (reportLoop files l).1,
      (∃ a b c e, x = OutputLine.fileLine a b c e) ∨
      (∃ a b, x = OutputLine.undocLine a b) := by
  induction l with
  | nil => simp [reportLoop]
  | cons f fs ih =>
    intro x hx
    by_cases h : lookupD files f = []
    · simp only [reportLoop, h, if_pos] at hx
      exact ih x hx
    · simp only [reportLoop, h, if_neg, List.mem_cons, List.mem_append,
        not_false_iff] at hx
      rcases hx with (rfl | hx) | hx
      · exact Or.inl ⟨_, _, _, _, rfl⟩
      · right
        simp only [undocLines, List.mem_flatMap] at hx
        obtain ⟨d, _, hd⟩ := hx
        cases hp : lookupPy (lookupD files f) d with
        | none => rw [hp] at hd; simp [Option.elim] at hd
        | some p =>
          rw [hp] at hd
          by_cases hs : p.2
          · simp [Option.elim, hs] at hd
          · simp only [Option.elim, hs, if_neg, Bool.false_eq_true,
              not_false_iff, List.mem_singleton] at hd
            exact ⟨p.1, d, hd⟩
      · exact ih x hx

/-! ## Concrete fixtures -/

/-- A filesystem on which every path exists and is already canonical. -/
def env0 : Env := ⟨fun _ => true, fun s => s⟩

/-- A filesystem on which no path exists. -/
def envNoFile : Env := ⟨fun _ => false, fun s => s⟩

/-- A `location` element carrying `file` and `line` attributes. -/
def mkLoc (f ln : String) : XmlNode :=
  .mk "location" [("file", f), ("line", ln)] none []

/-- Index with one fully documented file (`a.c`, 100%) listed before one
fully undocumented file (`b.c`, 0%). -/
def filesC1 : CoverageIndex :=
  [("a.c", [(some "f", (1, true))]), ("b.c", [(some "g", (2, false))])]

/-- A `briefdescription` holding bare text and no child element. -/
def briefTextOnly : XmlNode :=
  .mk "briefdescription" [] (some "Adds two numbers.") []

/-- A function member whose `briefdescription` contains only bare text. -/
def cexC2 : XmlNode :=
  .mk "memberdef" [("kind", "function")] none
    [.mk "name" [] (some "add") [], briefTextOnly, mkLoc "a.c" "4"]

/-- A documented function member (text wrapped in a `para` element). -/
def fnPara : XmlNode :=
  .mk "memberdef" [("kind", "function")] none
    [.mk "name" [] (some "foo") [],
     .mk "briefdescription" [] none [.mk "para" [] (some "Does things.") []],
     mkLoc "a.c" "3"]

/-- One file with 4 documented and 1 undocumented definitions (80%). -/
def filesC3 : CoverageIndex :=
  [("x.c", [(some "a", (1, true)), (some "b", (2, true)), (some "c", (3, true)),
            (some "d", (4, true)), (some "e", (5, false))])]

/-- One file with 7 documented and 4 undocumented definitions (7 of 11). -/
def filesC4 : CoverageIndex :=
  [("y.c", [(some "a", (1, true)), (some "b", (2, true)), (some "c", (3, true)),
            (some "d", (4, true)), (some "e", (5, true)), (some "f", (6, true)),
            (some "g", (7, true)), (some "h", (8, false)), (some "i", (9, false)),
            (some "j", (10, false)), (some "k", (11, false))])]

/-- Overloaded member `foo(int)` (documented). -/
def fnOv1 : XmlNode :=
  .mk "memberdef" [("kind", "function")] none
    [.mk "name" [] (some "foo") [],
     .mk "argsstring" [] (some "(int)") [],
     .mk "briefdescription" [] none [.mk "para" [] (some "One.") []],
     mkLoc "a.c" "3"]

/-- Overloaded member `foo(float)` (undocumented). -/
def fnOv2 : XmlNode :=
  .mk "memberdef" [("kind", "function")] none
    [.mk "name" [] (some "foo") [],
     .mk "argsstring" [] (some "(float)") [],
     mkLoc "a.c" "7"]

/-- Member `bar` without `argsstring`, undocumented, line 5. -/
def fnBar1 : XmlNode :=
  .mk "memberdef" [("kind", "function")] none
    [.mk "name" [] (some "bar") [], mkLoc "a.c" "5"]

/-- Member `bar` without `argsstring`, documented, line 8. -/
def fnBar2 : XmlNode :=
  .mk "memberdef" [("kind", "function")] none
    [.mk "name" [] (some "bar") [],
     .mk "briefdescription" [] none [.mk "para" [] (some "Two.") []],
     mkLoc "a.c" "8"]

/-- A function member with no `location` child at all. -/
def fnNoLoc : XmlNode :=
  .mk "memberdef" [("kind", "function")] none [.mk "name" [] (some "baz") []]

/-- A namespace compound whose location names a non-existent file. -/
def nsGhost : XmlNode :=
  .mk "compounddef" [("kind", "namespace")] none [mkLoc "ghost.c" "1"]

/-- A function member whose location names a non-existent file. -/
def fnGhost : XmlNode :=
  .mk "memberdef" [("kind", "function")] none
    [.mk "name" [] (some "qux") [], mkLoc "ghost.c" "5"]

/-- A member whose `kind` is `"space"`, a proper substring of
`"namespace"`. -/
def fnSpaceKind : XmlNode :=
  .mk "memberdef" [("kind", "space")] none
    [.mk "name" [] (some "s") [], mkLoc "a.c" "1"]

/-! ## Additional helper lemmas for the claims -/

theorem str_append_cancel (s x y : String) (h : s ++ x = s ++ y) : x = y := by
  have hd := congrArg String.data h
  simp only [String.data_append] at hd
  exact String.ext (List.append_cancel_left hd)

theorem findallSlash_iff (d : XmlNode) (k : String) :
    (!(findallSlash d k).isEmpty) = true ↔
      ∃ c ∈ d.children, c.tag = k ∧ c.children ≠ [] := by
  have h1 : (!(findallSlash d k).isEmpty) = true ↔ findallSlash d k ≠ [] := by
    cases h : (findallSlash d k).isEmpty with
    | true => simp [List.isEmpty_iff.mp h]
    | false =>
      simp only [Bool.not_false, true_iff]
      intro hnil
      rw [hnil] at h
      simp at h
  rw [h1]
  constructor
  · intro hne
    obtain ⟨x, hx⟩ := List.exists_mem_of_ne_nil _ hne
    simp only [findallSlash, List.mem_flatten, List.mem_map, List.mem_filter,
      decide_eq_true_eq] at hx
    obtain ⟨cs, ⟨c, ⟨hc, htag⟩, rfl⟩, hxin⟩ := hx
    exact ⟨c, hc, htag, List.ne_nil_of_mem hxin⟩
  · rintro ⟨c, hc, htag, hne2⟩
    obtain ⟨x, hx⟩ := List.exists_mem_of_ne_nil _ hne2
    intro hnil
    have hmem : x ∈ findallSlash d k := by
      simp only [findallSlash, List.mem_flatten, List.mem_map, List.mem_filter,
        decide_eq_true_eq]
      exact ⟨c.children, ⟨c, ⟨hc, htag⟩, rfl⟩, hx⟩
    rw [hnil] at hmem
    simp at hmem

/-! ## The claims -/

/-- C1: the claim says files print in strictly descending per-file coverage
order.  The code violates it: `get_coverage` tests the truthiness of whole
`(line, documented)` tuples, which are always truthy, so every non-empty
file compares as 100% and the printed order is merely the reversed key
order.  Here `a.c` has coverage 100, `b.c` has coverage 0, yet `b.c`'s
line is printed first. -/
theorem c1_print_order_ignores_coverage :
    specFileCoverage (lookupD filesC1 "a.c") >
      specFileCoverage (lookupD filesC1 "b.c") ∧
    (report filesC1 80).1 =
      [OutputLine.fileLine ⟨0, 1⟩ "b.c" 0 1, OutputLine.undocLine 2 (some "g"),
       OutputLine.fileLine ⟨100, 1⟩ "a.c" 1 1, OutputLine.blank,
       OutputLine.globalLine 50] := by
  constructor
  · have ha : lookupD filesC1 "a.c" = [(some "f", ((1 : Int), true))] := rfl
    have hb : lookupD filesC1 "b.c" = [(some "g", ((2 : Int), false))] := rfl
    rw [ha, hb]
    norm_num [specFileCoverage, fileYes, fileNo]
  · rfl

/-- C2 counterexample: a `briefdescription` carrying non-empty bare text
(and no child element) does not make the definition documented, contrary
to the claim's "a briefdescription containing text makes the definition
count as documented". -/
theorem c2_bare_text_not_documented :
    findChild cexC2 "briefdescription" = some briefTextOnly ∧
    briefTextOnly.text = some "Adds two numbers." ∧
    documentedCheck cexC2 = false :=
  ⟨rfl, rfl, rfl⟩

/-- C2 (amended): the documented flag is true iff at least one of the
`briefdescription`, `detaileddescription` or `inbodydescription` children
contains at least one child *element* (`findall("./k/")` matches child
elements, not bare text). -/
theorem c2_documented_iff_child_element (d : XmlNode) :
    documentedCheck d = true ↔
      ∃ c ∈ d.children,
        (c.tag = "briefdescription" ∨ c.tag = "detaileddescription" ∨
          c.tag = "inbodydescription") ∧ c.children ≠ [] := by
  simp only [documentedCheck, List.any_eq_true]
  constructor
  · rintro ⟨k, hk, hfa⟩
    obtain ⟨c, hc, htag, hne⟩ := (findallSlash_iff d k).mp hfa
    simp only [List.mem_cons, List.not_mem_nil, or_false] at hk
    refine ⟨c, hc, ?_, hne⟩
    rcases hk with rfl | rfl | rfl
    · exact Or.inl htag
    · exact Or.inr (Or.inl htag)
    · exact Or.inr (Or.inr htag)
  · rintro ⟨c, hc, htags, hne⟩
    rcases htags with h | h | h
    · exact ⟨"briefdescription", by simp, (findallSlash_iff d _).mpr ⟨c, hc, h, hne⟩⟩
    · exact ⟨"detaileddescription", by simp, (findallSlash_iff d _).mpr ⟨c, hc, h, hne⟩⟩
    · exact ⟨"inbodydescription", by simp, (findallSlash_iff d _).mpr ⟨c, hc, h, hne⟩⟩

/-- C6: a definition node (carrying a `kind` attribute, as every Doxygen
definition does) with no `location` child, or whose `location` lacks the
`file` or the `line` attribute, leaves the index exactly unchanged. -/
theorem c6_missing_location_passthrough (env : Env) (files : CoverageIndex)
    (d : XmlNode) (k : String) (hk : getAttr d "kind" = some k)
    (hmiss : findChild d "location" = none ∨
      ∃ loc, findChild d "location" = some loc ∧
        (getAttr loc "file" = none ∨ getAttr loc "line" = none)) :
    parse_definition env files d = some (files, []) := by
  rcases hmiss with h | ⟨loc, hloc, hfl | hfl⟩
  · simp [parse_definition, hk, h]
  · cases hline : getAttr loc "line" with
    | none => simp [parse_definition, hk, hloc, hline]
    | some ln => simp [parse_definition, hk, hloc, hline, hfl]
  · simp [parse_definition, hk, hloc, hfl]

/-- C6 witness: a concrete function member with no `location` child passes
through unchanged. -/
theorem c6_missing_location_passthrough_witness :
    parse_definition env0 [] fnNoLoc = some ([], []) :=
  c6_missing_location_passthrough env0 [] fnNoLoc "function" rfl (Or.inl rfl)

/-- C7 counterexample: a namespace compound whose `location/@file` does not
exist on disk is passed through with NO diagnostic printed (the kind
exclusion fires before the existence check), contrary to the claim that
every such node triggers a diagnostic line. -/
theorem c7_no_diagnostic_for_excluded_node :
    findChild nsGhost "location" = some (mkLoc "ghost.c" "1") ∧
    getAttr (mkLoc "ghost.c" "1") "file" = some "ghost.c" ∧
    envNoFile.isfile "ghost.c" = false ∧
    parse_definition envNoFile [] nsGhost = some ([], []) :=
  ⟨rfl, rfl, rfl, rfl⟩

/-- C7 (amended): a definition node that passes the kind and static
exclusion rules and whose `location/@file` is not a regular file on disk
produces exactly one `skip` diagnostic, leaves the index unchanged, and
the fold over the remaining definitions continues. -/
theorem c7_skip_and_continue (env : Env) (files : CoverageIndex) (d : XmlNode)
    (k : String) (loc : XmlNode) (f ln : String)
    (hk : getAttr d "kind" = some k) (hns : strIn k "namespace" = false)
    (hst : ¬(k = "function" ∧ getAttr d "static" = some "yes"))
    (hloc : findChild d "location" = some loc)
    (hline : getAttr loc "line" = some ln) (hfile : getAttr loc "file" = some f)
    (hex : env.isfile f = false) :
    parse_definition env files d = some (files, [OutputLine.skipLine d]) ∧
    ∀ out ds, parse_defs env files out (d :: ds) =
      parse_defs env files (out ++ [OutputLine.skipLine d]) ds := by
  have h := parse_definition_skips env files d k loc f ln hk hns hst hloc hline hfile hex
  exact ⟨h, fun out ds => by simp [parse_defs, h]⟩

/-- C7 witness: a function member pointing at the non-existent `ghost.c`
is skipped with a diagnostic and the fold continues. -/
theorem c7_skip_and_continue_witness :
    parse_definition envNoFile [] fnGhost =
      some ([], [OutputLine.skipLine fnGhost]) ∧
    parse_defs envNoFile [] [] [fnGhost, fnGhost] =
      parse_defs envNoFile [] [OutputLine.skipLine fnGhost] [fnGhost] := by
  have h := c7_skip_and_continue envNoFile [] fnGhost "function"
    (mkLoc "ghost.c" "5") "ghost.c" "5" rfl rfl (by decide) rfl rfl rfl rfl
  exact ⟨h.1, h.2 [] [fnGhost]⟩

/-- C8: definitions of kind `namespace` contribute nothing: folding the
classifier over any list of nodes gives the same result as folding it over
the list with all `kind="namespace"` nodes removed, so no namespace
definition ever appears in any FileRecord. -/
theorem c8_namespace_never_included (env : Env) (files : CoverageIndex)
    (out : List OutputLine) (l : List XmlNode) :
    parse_defs env files out
        (l.filter fun d => getAttr d "kind" != some "namespace") =
      parse_defs env files out l := by
  induction l generalizing files out with
  | nil => rfl
  | cons d ds ih =>
    rw [List.filter_cons]
    by_cases h : getAttr d "kind" = some "namespace"
    · have hpass := parse_definition_namespaceKind env files d "namespace" h rfl
      simp only [h, bne_self_eq_false, Bool.false_eq_true, if_neg,
        not_false_iff]
      rw [ih, parse_defs_step_unchanged env files out d ds hpass]
    · have hb : (getAttr d "kind" != some "namespace") = true := by
        simp [bne_iff_ne, h]
      rw [if_pos hb]
      cases hp : parse_definition env files d with
      | none => simp [parse_defs, hp]
      | some r => simp only [parse_defs, hp]; exact ih r.1 (out ++ r.2)

/-- C8 witness: on a concrete list, removing the namespace compound does
not change the fold's result. -/
theorem c8_namespace_never_included_witness :
    parse_defs env0 [] [] [fnPara] = parse_defs env0 [] [] [nsGhost, fnPara] :=
  c8_namespace_never_included env0 [] [] [nsGhost, fnPara]

/-- C9: any node whose `kind` is a non-empty substring of `"namespace"`
(e.g. `"name"`, `"space"`, `"a"`) passes through unchanged, because the
exclusion test `kind in ('namespace')` is substring membership in the
string `'namespace'`. -/
theorem c9_substring_kind_passthrough (env : Env) (files : CoverageIndex)
    (d : XmlNode) (k : String) (hk : getAttr d "kind" = some k)
    (hne : k ≠ "")
    (hsub : ∃ s t, s ++ k.toList ++ t = "namespace".toList) :
    parse_definition env files d = some (files, []) :=
  parse_definition_namespaceKind env files d k hk
    ((strIn_iff k "namespace").mpr hsub)

/-- C9 witness: a member of kind `"space"` (a substring of `"namespace"`)
is passed through unchanged. -/
theorem c9_substring_kind_passthrough_witness :
    parse_definition env0 [] fnSpaceKind = some ([], []) :=
  c9_substring_kind_passthrough env0 [] fnSpaceKind "space" rfl (by decide)
    ⟨"name".toList, [], rfl⟩

theorem report_totals_split (files : CoverageIndex) :
    (reportLoop files (sortedFiles files)).2.1 +
      (reportLoop files (sortedFiles files)).2.2 = totalAll files := by
  rw [reportTotals_yes, reportTotals_no]; rfl

theorem report_unfold (files : CoverageIndex) (threshold : Int)
    (hn : totalAll files ≠ 0) :
    report files threshold =
      ((reportLoop files (sortedFiles files)).1 ++
        [OutputLine.blank,
         OutputLine.globalLine (totalYes files * 100 / totalAll files)],
       some (if ((totalYes files * 100 / totalAll files : Nat) : Int) > threshold
             then 0
             else threshold - (totalYes files * 100 / totalAll files : Nat))) := by
  have hall := report_totals_split files
  have hy := reportTotals_yes files
  have hne : ¬((reportLoop files (sortedFiles files)).2.1 +
      (reportLoop files (sortedFiles files)).2.2 = 0) := by
    rw [hall]; exact hn
  simp only [report]
  rw [if_neg hne, hall, hy]

/-- C4: the global percentage printed and used for the signal is
`totalYes * 100 / totalAll` with natural (truncating) division. -/
theorem c4_global_truncated_percentage (files : CoverageIndex)
    (threshold : Int) (d n : Nat) (hd : totalYes files = d)
    (hn : totalAll files = n) (hpos : 0 < n) :
    (report files threshold).1 =
      (reportLoop files (sortedFiles files)).1 ++
        [OutputLine.blank, OutputLine.globalLine (d * 100 / n)] ∧
    (report files threshold).2 =
      some (if ((d * 100 / n : Nat) : Int) > threshold then 0
            else threshold - (d * 100 / n : Nat)) := by
  have key := report_unfold files threshold (by omega)
  rw [hd, hn] at key
  exact ⟨by rw [key], by rw [key]⟩

/-- C4 witness: 7 documented of 11 definitions prints the truncated 63%,
not the rounded 64%, and signals `80 - 63 = 17`. -/
theorem c4_global_truncated_percentage_witness :
    (report filesC4 80).1 =
      (reportLoop filesC4 (sortedFiles filesC4)).1 ++
        [OutputLine.blank, OutputLine.globalLine 63] ∧
    (report filesC4 80).2 = some 17 := by
  have h := c4_global_truncated_percentage filesC4 80 7 11 rfl rfl (by decide)
  have h63 : (7 * 100 / 11 : Nat) = 63 := rfl
  constructor
  · rw [h.1, h63]
  · rw [h.2]; decide

/-- C3 counterexample: with global coverage exactly equal to the threshold
the percentage does not strictly exceed the threshold, so the claim
promises a strictly positive returned magnitude; the code returns
`threshold - percentage = 0`. -/
theorem c3_zero_at_equality :
    totalYes filesC3 = 4 ∧ totalAll filesC3 = 5 ∧ (4 * 100 / 5 : Nat) = 80 ∧
    ¬ ((80 : Int) > 80) ∧ (report filesC3 80).2 = some 0 ∧ ¬ ((0 : Int) > 0) :=
  ⟨rfl, rfl, rfl, by decide, rfl, by decide⟩

/-- C3 (amended): the reporter returns 0 when the global percentage
strictly exceeds the threshold; otherwise it returns
`threshold - percentage`, which is nonnegative, and strictly positive
exactly when the percentage is strictly below the threshold (it is 0 at
equality). -/
theorem c3_signal_zero_or_shortfall (files : CoverageIndex) (threshold : Int)
    (hn : totalAll files ≠ 0) :
    (((totalYes files * 100 / totalAll files : Nat) : Int) > threshold →
      (report files threshold).2 = some 0) ∧
    (((totalYes files * 100 / totalAll files : Nat) : Int) ≤ threshold →
      (report files threshold).2 =
        some (threshold -
          ((totalYes files * 100 / totalAll files : Nat) : Int)) ∧
      0 ≤ threshold - ((totalYes files * 100 / totalAll files : Nat) : Int) ∧
      (((totalYes files * 100 / totalAll files : Nat) : Int) < threshold →
        0 < threshold - ((totalYes files * 100 / totalAll files : Nat) : Int))) := by
  have key := report_unfold files threshold hn
  constructor
  · intro hgt
    rw [key]
    simp only []
    rw [if_pos hgt]
  · intro hle
    have hnot : ¬(((totalYes files * 100 / totalAll files : Nat) : Int) > threshold) :=
      not_lt.mpr hle
    refine ⟨?_, by omega, fun hlt => by omega⟩
    rw [key]
    simp only []
    rw [if_neg hnot]

/-- C3 witness: coverage 80 against threshold 90 returns the shortfall
`90 - 80 = 10`. -/
theorem c3_signal_zero_or_shortfall_witness :
    (report filesC3 90).2 = some 10 := by
  have h := (c3_signal_zero_or_shortfall filesC3 90 (by decide)).2 (by decide)
  rw [h.1]; decide

/-- C10: when the index holds no definitions at all, the reporter yields
no signal (the global-percentage computation divides by zero) and no
global percentage line is printed. -/
theorem c10_zero_total_no_global (files : CoverageIndex) (threshold : Int)
    (h : totalAll files = 0) :
    (report files threshold).2 = none ∧
    ∀ p, OutputLine.globalLine p ∉ (report files threshold).1 := by
  have hall := report_totals_split files
  rw [h] at hall
  have key : report files threshold =
      ((reportLoop files (sortedFiles files)).1, none) := by
    simp only [report]
    rw [if_pos hall]
  rw [key]
  refine ⟨rfl, fun p hp => ?_⟩
  rcases reportLoop_shape files (sortedFiles files) _ hp with
    ⟨a, b, c, e, hx⟩ | ⟨a, b, hx⟩ <;> simp at hx

/-- C10 witness: an index holding only an empty FileRecord produces no
signal and no global line. -/
theorem c10_zero_total_no_global_witness :
    (report [("empty.c", [])] 80).2 = none ∧
    ∀ p, OutputLine.globalLine p ∉ (report [("empty.c", [])] 80).1 :=
  c10_zero_total_no_global [("empty.c", [])] 80 rfl

/-- C5: for two included member definitions resolving to the same file and
the same resolved name: different `argsstring` texts yield two distinct
DefinitionIds, and both entries are stored under their own id; when
neither has an `argsstring` child they collapse to one DefinitionId and
the later entry's `(line, documented)` pair overwrites the earlier one. -/
theorem c5_defid_overloads (env : Env) (files : CoverageIndex)
    (d1 d2 : XmlNode) {k1 k2 : String} {loc1 loc2 : XmlNode}
    {f1 f2 f : String} {ln1 ln2 : String} {l1 l2 : Int}
    {files2 : CoverageIndex} {out : List OutputLine}
    (hk1 : getAttr d1 "kind" = some k1) (hns1 : strIn k1 "namespace" = false)
    (hst1 : ¬(k1 = "function" ∧ getAttr d1 "static" = some "yes"))
    (hloc1 : findChild d1 "location" = some loc1)
    (hline1 : getAttr loc1 "line" = some ln1)
    (hfile1 : getAttr loc1 "file" = some f1)
    (hex1 : env.isfile f1 = true) (hint1 : pyInt ln1 = some l1)
    (hreal1 : env.realpath f1 = f)
    (hk2 : getAttr d2 "kind" = some k2) (hns2 : strIn k2 "namespace" = false)
    (hst2 : ¬(k2 = "function" ∧ getAttr d2 "static" = some "yes"))
    (hloc2 : findChild d2 "location" = some loc2)
    (hline2 : getAttr loc2 "line" = some ln2)
    (hfile2 : getAttr loc2 "file" = some f2)
    (hex2 : env.isfile f2 = true) (hint2 : pyInt ln2 = some l2)
    (hreal2 : env.realpath f2 = f)
    (hname : resolveName d1 = resolveName d2)
    (hp : parse_defs env files [] [d1, d2] = some (files2, out)) :
    (∀ a1 a2, findChild d1 "argsstring" = some a1 →
        findChild d2 "argsstring" = some a2 →
        pyStr a1.text ≠ pyStr a2.text →
      defId d1 ≠ defId d2 ∧
      lookupPy (lookupD files2 f) (defId d1) =
        some (l1, documentedCheck d1) ∧
      lookupPy (lookupD files2 f) (defId d2) =
        some (l2, documentedCheck d2)) ∧
    (findChild d1 "argsstring" = none → findChild d2 "argsstring" = none →
      defId d1 = defId d2 ∧
      lookupPy (lookupD files2 f) (defId d1) =
        some (l2, documentedCheck d2)) := by
  have s1 := parse_definition_stores env files d1 k1 loc1 f1 ln1 l1 hk1 hns1
    hst1 hloc1 hline1 hfile1 hex1 hint1
  rw [hreal1] at s1
  have s2 := parse_definition_stores env
    (pyInsert f (pyInsert (defId d1) (l1, documentedCheck d1)
      (lookupD files f)) files)
    d2 k2 loc2 f2 ln2 l2 hk2 hns2 hst2 hloc2 hline2 hfile2 hex2 hint2
  rw [hreal2, lookupD_pyInsert_self] at s2
  have hp' : parse_defs env files [] [d1, d2] =
      some (pyInsert f
        (pyInsert (defId d2) (l2, documentedCheck d2)
          (pyInsert (defId d1) (l1, documentedCheck d1) (lookupD files f)))
        (pyInsert f (pyInsert (defId d1) (l1, documentedCheck d1)
          (lookupD files f)) files), []) := by
    simp only [parse_defs, s1, s2, List.nil_append, List.append_nil]
  rw [hp'] at hp
  have hpair := Option.some.inj hp
  have hfiles2 : files2 = pyInsert f
      (pyInsert (defId d2) (l2, documentedCheck d2)
        (pyInsert (defId d1) (l1, documentedCheck d1) (lookupD files f)))
      (pyInsert f (pyInsert (defId d1) (l1, documentedCheck d1)
        (lookupD files f)) files) := ((Prod.ext_iff.mp hpair).1).symm
  have hrec : lookupD files2 f =
      pyInsert (defId d2) (l2, documentedCheck d2)
        (pyInsert (defId d1) (l1, documentedCheck d1) (lookupD files f)) := by
    rw [hfiles2, lookupD_pyInsert_self]
  constructor
  · intro a1 a2 ha1 ha2 hdiff
    have hid1 : defId d1 = some (pyStr (resolveName d1) ++ pyStr a1.text) := by
      simp only [defId, ha1]
    have hid2 : defId d2 = some (pyStr (resolveName d1) ++ pyStr a2.text) := by
      simp only [defId, ha2, ← hname]
    have hne : defId d1 ≠ defId d2 := by
      rw [hid1, hid2]
      intro h
      exact hdiff (str_append_cancel _ _ _ (Option.some.inj h))
    refine ⟨hne, ?_, ?_⟩
    · rw [hrec, lookupPy_pyInsert_ne _ _ _ _ hne, lookupPy_pyInsert_self]
    · rw [hrec, lookupPy_pyInsert_self]
  · intro h1 h2
    have hid1 : defId d1 = resolveName d1 := by simp only [defId, h1]
    have hid2 : defId d2 = resolveName d2 := by simp only [defId, h2]
    have heq : defId d1 = defId d2 := by rw [hid1, hid2, hname]
    refine ⟨heq, ?_⟩
    rw [hrec, heq, lookupPy_pyInsert_self]

/-- The index produced by classifying `fnOv1` then `fnOv2`. -/
def filesOv : CoverageIndex :=
  [("a.c", [(some "foo(int)", ((3 : Int), true)),
            (some "foo(float)", ((7 : Int), false))])]

/-- The index produced by classifying `fnBar1` then `fnBar2`. -/
def filesBar : CoverageIndex :=
  [("a.c", [(some "bar", ((8 : Int), true))])]

/-- C5 witness: `foo(int)` and `foo(float)` get two distinct ids and both
are stored; the two `bar`s (no argsstring) collapse and the later entry
`(8, true)` wins. -/
theorem c5_defid_overloads_witness :
    (defId fnOv1 ≠ defId fnOv2 ∧
     lookupPy (lookupD filesOv "a.c") (defId fnOv1) = some (3, true) ∧
     lookupPy (lookupD filesOv "a.c") (defId fnOv2) = some (7, false)) ∧
    (defId fnBar1 = defId fnBar2 ∧
     lookupPy (lookupD filesBar "a.c") (defId fnBar1) = some (8, true)) := by
  have hA := (c5_defid_overloads env0 [] fnOv1 fnOv2 rfl rfl (by decide)
      rfl rfl rfl rfl rfl rfl rfl rfl (by decide) rfl rfl rfl rfl rfl rfl
      rfl rfl).1
    (XmlNode.mk "argsstring" [] (some "(int)") [])
    (XmlNode.mk "argsstring" [] (some "(float)") []) rfl rfl (by decide)
  have hB := (c5_defid_overloads env0 [] fnBar1 fnBar2 rfl rfl (by decide)
      rfl rfl rfl rfl rfl rfl rfl rfl (by decide) rfl rfl rfl rfl rfl rfl
      rfl rfl).2 rfl rfl
  exact ⟨hA, hB⟩
